import Mathlib

/-
Shallow embedding of the `AgentZ2077/solana-mcp` anchor game programs.

Source files embedded here:
- `anchor-game-modules/state-module/programs/state_module/src/lib.rs`
  (`register_player`, `update_level`, account struct `PlayerState`
  with fields `owner : Pubkey`, `name : String`, `level : u8`);
- `anchor-game-modules/behavior-module/programs/behavior_module/src/lib.rs`
  (`attack`, account struct `PlayerState` with `owner : Pubkey`,
  `hp : u8`, error `PlayerDefeated` — the spec calls it `LethalDamage`);
- `anchor-game-modules/asset-module/programs/asset_module/src/lib.rs`
  (`mint_item`, which issues a CPI `mint_to(.., 1)` to the SPL token
  program);
- `solana-mcp/anchor-game-contracts/mint_nft/lib.rs` (the no-op
  entry point `initialize`, embedded as `init_stub` since Lean-side
  naming restrictions apply to that identifier).

Modelling decisions:
- `Pubkey` is an opaque, equality-comparable identifier: `Nat`.
- Solana accounts live at addresses; we model each program's account
  store as a total map `Addr → Option record`.  Anchor's `init`
  constraint fails when the account already exists (`AlreadyExists`),
  `Account<'info, T>` deserialization fails when it does not
  (`NotFound`), `has_one = owner` together with `owner : Signer`
  fails when the stored owner is not the transaction signer
  (`Unauthorized`) — all before the handler body runs.
- A Solana transaction is atomic: a handler that returns `Err` commits
  nothing.  `step` returns `Except Err SystemState`; `exec` folds the
  error case back to the unchanged pre-state, which is exactly the
  observable behaviour.
- `u8` fields (`hp`, `level`, `damage`, `new_level`) are `Nat`s whose
  callers supply values below 256; `hp - damage` only happens under
  `damage < hp`, so `Nat` subtraction agrees with `u8` subtraction.
-/

namespace SolanaMcp

/-- Opaque equality-comparable public identifier (`Pubkey`). -/
abbrev Identity := Nat

/-- Account address in the record store. -/
abbrev Addr := Nat

/-- Mint address in the external token ledger. -/
abbrev MintAddr := Nat

/-- Token-account (destination balance) address in the external ledger. -/
abbrev TokenAcctAddr := Nat

/-- Account data of `state_module::PlayerState`:
`{ owner : Pubkey, name : String, level : u8 }`. -/
structure ProfileRecord where
  owner : Identity
  name : String
  level : Nat
deriving DecidableEq, Repr

/-- Account data of `behavior_module::PlayerState`:
`{ owner : Pubkey, hp : u8 }`. -/
structure CombatRecord where
  owner : Identity
  hp : Nat
deriving DecidableEq, Repr

/-- Error taxonomy (spec §7).  `LethalDamage` is the source's
`CustomError::PlayerDefeated`; `Unauthorized` is Anchor's failed
`has_one = owner` constraint; `AlreadyExists` / `NotFound` are the
record store's create / get failures. -/
inductive Err where
  | Unauthorized
  | AlreadyExists
  | NotFound
  | LethalDamage
  | MintAuthorityMismatch
  | LedgerError
  | InvalidAuthority
deriving DecidableEq, Repr

/-- State of the external Token Ledger: each mint's designated minting
authority and each destination token account's balance. -/
structure TokenLedger where
  mintAuthority : MintAddr → Identity
  balance : TokenAcctAddr → Nat

/-- The whole observable state: the state-module's profile accounts,
the behavior-module's combat accounts, and the external token ledger. -/
structure SystemState where
  profiles : Addr → Option ProfileRecord
  combats : Addr → Option CombatRecord
  ledger : TokenLedger

/-- Modelled from the spec: the external Token Ledger's mint operation
`mintTo(mint, destination, quantity, authority)` (spec §6), whose
implementation (the SPL token program) is not part of this repository.
It requires `authority` to match the mint's designated minting
authority, surfacing `MintAuthorityMismatch` on rejection, and on
success credits exactly `quantity` units to `destination`. -/
def mintTo (l : TokenLedger) (mint : MintAddr) (dest : TokenAcctAddr)
    (quantity : Nat) (authority : Identity) : Except Err TokenLedger :=
  if l.mintAuthority mint = authority then
    Except.ok { l with
      balance := fun d => if d = dest then l.balance d + quantity else l.balance d }
  else
    Except.error Err.MintAuthorityMismatch

/-- `state_module::register_player`.  Anchor's `init` constraint on
`player` fails if an account already occupies the address; otherwise
the handler sets `owner = authority.key()`, `name`, `level = 1`. -/
def register_player (s : SystemState) (addr : Addr) (authority : Identity)
    (name : String) : Except Err SystemState :=
  match s.profiles addr with
  | some _ => Except.error Err.AlreadyExists
  | none =>
    Except.ok { s with
      profiles := fun a =>
        if a = addr then some { owner := authority, name := name, level := 1 }
        else s.profiles a }

/-- `state_module::update_level`.  `Account` deserialization fails if no
record exists; `has_one = owner` with `owner : Signer` fails unless the
stored owner signed (`caller`); then the handler sets
`player.level = new_level` unconditionally. -/
def update_level (s : SystemState) (addr : Addr) (caller : Identity)
    (new_level : Nat) : Except Err SystemState :=
  match s.profiles addr with
  | none => Except.error Err.NotFound
  | some p =>
    if p.owner = caller then
      Except.ok { s with
        profiles := fun a =>
          if a = addr then some { p with level := new_level } else s.profiles a }
    else
      Except.error Err.Unauthorized

/-- `behavior_module::attack`.  After the `has_one = owner` check, the
handler requires `player.hp > damage` (else `PlayerDefeated`, spec name
`LethalDamage`) and then sets `player.hp -= damage`. -/
def attack (s : SystemState) (addr : Addr) (caller : Identity)
    (damage : Nat) : Except Err SystemState :=
  match s.combats addr with
  | none => Except.error Err.NotFound
  | some p =>
    if p.owner = caller then
      if p.hp > damage then
        Except.ok { s with
          combats := fun a =>
            if a = addr then some { p with hp := p.hp - damage } else s.combats a }
      else
        Except.error Err.LethalDamage
    else
      Except.error Err.Unauthorized

/-- `asset_module::mint_item`: a CPI to the token ledger's mint
operation with the quantity hard-wired to `1`; the `_bump` argument is
unused by the handler. -/
def mint_item (s : SystemState) (mint : MintAddr) (dest : TokenAcctAddr)
    (authority : Identity) ( _bump : Nat) : Except Err SystemState :=
  match mintTo s.ledger mint dest 1 authority with
  | Except.ok l => Except.ok { s with ledger := l }
  | Except.error e => Except.error e

/-- `mint_nft::initialize` (named `init_stub` here): the handler body is
`Ok(())` — it succeeds and touches nothing. -/
def init_stub (s : SystemState) ( _payer : Identity) : Except Err SystemState :=
  Except.ok s

/-- One operation of the system: the five program entry points. -/
inductive Op where
  | registerPlayer (addr : Addr) (authority : Identity) (name : String)
  | updateLevel (addr : Addr) (caller : Identity) (newLevel : Nat)
  | attack (addr : Addr) (caller : Identity) (damage : Nat)
  | mintItem (mint : MintAddr) (dest : TokenAcctAddr) (authority : Identity) (bump : Nat)
  | initStub (payer : Identity)

/-- Dispatch one operation against the state. -/
def step (s : SystemState) : Op → Except Err SystemState
  | Op.registerPlayer addr authority name => register_player s addr authority name
  | Op.updateLevel addr caller newLevel => update_level s addr caller newLevel
  | Op.attack addr caller damage => attack s addr caller damage
  | Op.mintItem mint dest authority bump => mint_item s mint dest authority bump
  | Op.initStub payer => init_stub s payer

/-- Transactional execution: a failing operation commits nothing, so
the observable post-state is the unchanged pre-state plus the error. -/
def exec (s : SystemState) (op : Op) : SystemState × Option Err :=
  match step s op with
  | Except.ok s' => (s', none)
  | Except.error e => (s, some e)

/-- The combat-domain invariant (spec §3): every stored combat record
has strictly positive hp. -/
def CombatInv (s : SystemState) : Prop :=
  ∀ a r, s.combats a = some r → 0 < r.hp

/-! Concrete states for the witness theorems. -/

/-- A concrete ledger: every mint's authority is identity `5`, all
balances start at `0`. -/
def wLedger : TokenLedger :=
  { mintAuthority := fun _ => 5, balance := fun _ => 0 }

/-- A concrete system state: a profile `{owner 7, "Hero", level 3}` and
a combat record `{owner 7, hp 10}` both at address `0`. -/
def wState : SystemState :=
  { profiles := fun a => if a = 0 then some { owner := 7, name := "Hero", level := 3 } else none
    combats := fun a => if a = 0 then some { owner := 7, hp := 10 } else none
    ledger := wLedger }

/-- `wState` after `attack 0 7 4` succeeds: hp drops from 10 to 6. -/
def wAfterAttack : SystemState :=
  { wState with combats := fun a =>
      if a = 0 then some { owner := 7, hp := 6 } else wState.combats a }

/-- `wState` after `update_level 0 7 50` succeeds: level 3 becomes 50. -/
def wAfterUpd : SystemState :=
  { wState with profiles := fun a =>
      if a = 0 then some { owner := 7, name := "Hero", level := 50 } else wState.profiles a }

/-- `wState` after `register_player 1 9 "Mage"` succeeds. -/
def wAfterReg : SystemState :=
  { wState with profiles := fun a =>
      if a = 1 then some { owner := 9, name := "Mage", level := 1 } else wState.profiles a }

/-- The ledger balance map after one mint of quantity 1 to destination `0`. -/
def wBal1 : TokenAcctAddr → Nat := fun d =>
  if d = 0 then wLedger.balance d + 1 else wLedger.balance d

/-- The ledger balance map after a second mint of quantity 1 to destination `0`. -/
def wBal2 : TokenAcctAddr → Nat := fun d =>
  if d = 0 then wBal1 d + 1 else wBal1 d

/-- `wState` after one successful `mint_item` to destination `0`. -/
def wAfterMint1 : SystemState :=
  { wState with ledger := { mintAuthority := wLedger.mintAuthority, balance := wBal1 } }

/-- `wAfterMint1` after a second successful `mint_item` to destination `0`. -/
def wAfterMint2 : SystemState :=
  { wAfterMint1 with ledger := { mintAuthority := wLedger.mintAuthority, balance := wBal2 } }

/-! Helper lemmas shared by the claim theorems. -/

/-- Inversion for a successful `register_player` step: the address was
free and the post-state stores `{owner, name, level = 1}` there. -/
theorem register_player_ok_inv (s s₁ : SystemState) (addr : Addr)
    (a : Identity) (n : String)
    (h : step s (Op.registerPlayer addr a n) = Except.ok s₁) :
    s.profiles addr = none ∧
    s₁ = { s with profiles := fun x =>
      if x = addr then some { owner := a, name := n, level := 1 } else s.profiles x } := by
  simp only [step, register_player] at h
  split at h
  · cases h
  · rename_i heq
    exact ⟨heq, (Except.ok.inj h).symm⟩

/-- A successful `mint_item` step adds exactly one unit to the
destination balance and leaves the profile and combat stores alone. -/
theorem mint_item_ok_inv (s s₁ : SystemState) (m : MintAddr)
    (dest : TokenAcctAddr) (a : Identity) (b : Nat)
    (h : step s (Op.mintItem m dest a b) = Except.ok s₁) :
    s₁.ledger.balance dest = s.ledger.balance dest + 1 ∧
    s₁.profiles = s.profiles ∧ s₁.combats = s.combats := by
  by_cases ha : s.ledger.mintAuthority m = a
  · simp only [step, mint_item, mintTo, if_pos ha, Except.ok.injEq] at h
    subst h
    simp
  · simp only [step, mint_item, mintTo, if_neg ha] at h
    cases h

/-! The claim theorems. -/

/-- Claim C1: for every stored hp and every damage value, an
owner-authorized `attack` succeeds iff `damage < hp`; on success the
new hp equals `hp - damage` and is strictly greater than 0; on failure
(`LethalDamage` when `damage ≥ hp`) the state, and so the stored hp,
is unchanged. -/
theorem attack_succeeds_iff_damage_lt_hp (s : SystemState) (addr : Addr)
    (caller : Identity) (damage : Nat) (p : CombatRecord)
    (hrec : s.combats addr = some p) (hown : p.owner = caller) :
    ((∃ s', step s (Op.attack addr caller damage) = Except.ok s') ↔ damage < p.hp)
    ∧ (∀ s', step s (Op.attack addr caller damage) = Except.ok s' →
        s'.combats addr = some { p with hp := p.hp - damage } ∧ 0 < p.hp - damage)
    ∧ (p.hp ≤ damage →
        exec s (Op.attack addr caller damage) = (s, some Err.LethalDamage)) := by
  by_cases hd : damage < p.hp
  · have hstep : step s (Op.attack addr caller damage) = Except.ok
        { s with combats := fun a =>
            if a = addr then some { p with hp := p.hp - damage } else s.combats a } := by
      simp [step, attack, hrec, hown, hd]
    refine ⟨⟨fun _ => hd, fun _ => ⟨_, hstep⟩⟩, ?_, ?_⟩
    · intro s' hs'
      rw [hstep] at hs'
      have he := Except.ok.inj hs'
      subst he
      exact ⟨by simp, Nat.sub_pos_of_lt hd⟩
    · intro hle
      exact absurd hd (Nat.not_lt.mpr hle)
  · have hstep : step s (Op.attack addr caller damage) = Except.error Err.LethalDamage := by
      simp [step, attack, hrec, hown, hd]
    refine ⟨⟨?_, fun h => absurd h hd⟩, ?_, ?_⟩
    · rintro ⟨s', hs'⟩
      rw [hstep] at hs'
      cases hs'
    · intro s' hs'
      rw [hstep] at hs'
      cases hs'
    · intro _
      simp [exec, hstep]

/-- Witness for C1 at `wState`, record `{owner 7, hp 10}`, damage 4. -/
theorem attack_succeeds_iff_damage_lt_hp_witness :
    ((∃ s', step wState (Op.attack 0 7 4) = Except.ok s') ↔ 4 < 10)
    ∧ (∀ s', step wState (Op.attack 0 7 4) = Except.ok s' →
        s'.combats 0 = some { owner := 7, hp := 6 } ∧ 0 < (6 : Nat))
    ∧ ((10 : Nat) ≤ 4 →
        exec wState (Op.attack 0 7 4) = (wState, some Err.LethalDamage)) :=
  attack_succeeds_iff_damage_lt_hp wState 0 7 4 { owner := 7, hp := 10 } rfl rfl

/-- Claim C4: an owner-authorized `update_level` succeeds and sets
`level = newLevel` unconditionally, for every u8 value including 0 and
values below the current level. -/
theorem update_level_sets_level_unconditionally (s : SystemState) (addr : Addr)
    (caller : Identity) (newLevel : Nat) (p : ProfileRecord)
    (hrec : s.profiles addr = some p) (hown : p.owner = caller)
    ( _hu8 : newLevel < 256) :
    ∃ s', step s (Op.updateLevel addr caller newLevel) = Except.ok s'
      ∧ s'.profiles addr = some { p with level := newLevel } := by
  refine ⟨{ s with profiles := fun a =>
      if a = addr then some { p with level := newLevel } else s.profiles a }, ?_, by simp⟩
  simp [step, update_level, hrec, hown]

/-- Witness for C4 at `wState`: the owner lowers level 3 to 0. -/
theorem update_level_sets_level_unconditionally_witness :
    (0 : Nat) < 256
    ∧ ∃ s', step wState (Op.updateLevel 0 7 0) = Except.ok s'
        ∧ s'.profiles 0 = some { owner := 7, name := "Hero", level := 0 } :=
  ⟨by decide, update_level_sets_level_unconditionally wState 0 7 0
    { owner := 7, name := "Hero", level := 3 } rfl rfl (by decide)⟩

/-- Claim C5: `register_player` at a free address creates a profile
record with `owner = authority`, the given name, and `level = 1`. -/
theorem register_player_creates_level_one (s : SystemState) (addr : Addr)
    (authority : Identity) (name : String)
    (hfree : s.profiles addr = none) :
    ∃ s', step s (Op.registerPlayer addr authority name) = Except.ok s'
      ∧ s'.profiles addr = some { owner := authority, name := name, level := 1 } := by
  refine ⟨{ s with profiles := fun a =>
      if a = addr then some { owner := authority, name := name, level := 1 }
      else s.profiles a }, ?_, by simp⟩
  simp [step, register_player, hfree]

/-- Witness for C5 at `wState`: address 1 is free. -/
theorem register_player_creates_level_one_witness :
    ∃ s', step wState (Op.registerPlayer 1 9 "Mage") = Except.ok s'
      ∧ s'.profiles 1 = some { owner := 9, name := "Mage", level := 1 } :=
  register_player_creates_level_one wState 1 9 "Mage" rfl

/-- Claim C9: a successful `update_level` leaves the record's owner and
name unchanged — only `level` is written. -/
theorem update_level_preserves_owner_name (s s' : SystemState) (addr : Addr)
    (caller : Identity) (newLevel : Nat) (p : ProfileRecord)
    (hrec : s.profiles addr = some p)
    (h : step s (Op.updateLevel addr caller newLevel) = Except.ok s') :
    ∃ q, s'.profiles addr = some q ∧ q.owner = p.owner ∧ q.name = p.name := by
  simp only [step, update_level, hrec] at h
  split at h
  · have he := Except.ok.inj h
    subst he
    exact ⟨{ p with level := newLevel }, by simp, rfl, rfl⟩
  · cases h

/-- Witness for C9 at `wState`: the owner raises level 3 to 50; owner
and name survive. -/
theorem update_level_preserves_owner_name_witness :
    ∃ q, wAfterUpd.profiles 0 = some q ∧ q.owner = 7 ∧ q.name = "Hero" :=
  update_level_preserves_owner_name wState wAfterUpd 0 7 50
    { owner := 7, name := "Hero", level := 3 } rfl rfl

/-- Claim C10: an owner-authorized `attack` with `damage = 0` succeeds
iff the stored hp is strictly positive, and on success the combat
record (hp and owner) is exactly as before. -/
theorem attack_zero_damage_identity (s : SystemState) (addr : Addr)
    (caller : Identity) (p : CombatRecord)
    (hrec : s.combats addr = some p) (hown : p.owner = caller) :
    ((∃ s', step s (Op.attack addr caller 0) = Except.ok s') ↔ 0 < p.hp)
    ∧ (∀ s', step s (Op.attack addr caller 0) = Except.ok s' →
        s'.combats addr = some p) := by
  by_cases hd : 0 < p.hp
  · have hstep : step s (Op.attack addr caller 0) = Except.ok
        { s with combats := fun a =>
            if a = addr then some { p with hp := p.hp - 0 } else s.combats a } := by
      simp [step, attack, hrec, hown, hd]
    refine ⟨⟨fun _ => hd, fun _ => ⟨_, hstep⟩⟩, ?_⟩
    intro s' hs'
    rw [hstep] at hs'
    have he := Except.ok.inj hs'
    subst he
    simp
  · have hstep : step s (Op.attack addr caller 0) = Except.error Err.LethalDamage := by
      simp [step, attack, hrec, hown, hd]
    refine ⟨⟨?_, fun h => absurd h hd⟩, ?_⟩
    · rintro ⟨s', hs'⟩
      rw [hstep] at hs'
      cases hs'
    · intro s' hs'
      rw [hstep] at hs'
      cases hs'

/-- Witness for C10 at `wState`, record `{owner 7, hp 10}`. -/
theorem attack_zero_damage_identity_witness :
    ((∃ s', step wState (Op.attack 0 7 0) = Except.ok s') ↔ (0 : Nat) < 10)
    ∧ (∀ s', step wState (Op.attack 0 7 0) = Except.ok s' →
        s'.combats 0 = some { owner := 7, hp := 10 }) :=
  attack_zero_damage_identity wState 0 7 { owner := 7, hp := 10 } rfl rfl

/-- Claim C2: if every stored combat record has strictly positive hp,
then after any successful operation of the system every stored combat
record still has strictly positive hp; in particular no successful
`attack` drives hp to exactly zero. -/
theorem step_preserves_positive_hp (s s' : SystemState) (op : Op)
    (hinv : CombatInv s) (h : step s op = Except.ok s') : CombatInv s' := by
  cases op with
  | registerPlayer addr authority name =>
    obtain ⟨-, rfl⟩ := register_player_ok_inv s s' addr authority name h
    exact fun a r hr => hinv a r hr
  | updateLevel addr caller newLevel =>
    simp only [step, update_level] at h
    split at h
    · cases h
    · split at h
      · have he := Except.ok.inj h
        subst he
        exact fun a r hr => hinv a r hr
      · cases h
  | attack addr caller damage =>
    simp only [step, attack] at h
    split at h
    · cases h
    · rename_i p hrec
      split at h
      · split at h
        · rename_i hown hd
          have he := Except.ok.inj h
          subst he
          intro a r hr
          simp only at hr
          by_cases ha : a = addr
          · subst ha
            rw [if_pos rfl] at hr
            have hr' := Option.some.inj hr
            subst hr'
            exact Nat.sub_pos_of_lt hd
          · rw [if_neg ha] at hr
            exact hinv a r hr
        · cases h
      · cases h
  | mintItem mint dest authority bump =>
    obtain ⟨-, -, hc⟩ := mint_item_ok_inv s s' mint dest authority bump h
    intro a r hr
    rw [hc] at hr
    exact hinv a r hr
  | initStub payer =>
    have he := Except.ok.inj h
    subst he
    exact hinv

/-- Witness for C2: `wState` satisfies the invariant and `attack 0 7 4`
succeeds into `wAfterAttack`, which therefore satisfies it too. -/
theorem step_preserves_positive_hp_witness : CombatInv wAfterAttack :=
  step_preserves_positive_hp wState wAfterAttack (Op.attack 0 7 4)
    (fun a r hr => by
      by_cases ha : a = 0
      · subst ha
        have hr' : some { owner := 7, hp := 10 } = some r := hr
        have he := Option.some.inj hr'
        subst he
        decide
      · exact absurd hr (by simp [wState, ha]))
    rfl

/-- Claim C3: each half independently — an `update_level` call on any
existing profile record, and an `attack` call on any existing combat
record, whose caller differs from that record's stored owner fails
`Unauthorized` and commits nothing: the post-state is the unchanged
pre-state, so the entire record is unchanged. -/
theorem non_owner_mutation_fails_unauthorized (s : SystemState)
    (addrP addrC : Addr) (caller : Identity) (newLevel damage : Nat) :
    (∀ p : ProfileRecord, s.profiles addrP = some p → p.owner ≠ caller →
        exec s (Op.updateLevel addrP caller newLevel) = (s, some Err.Unauthorized))
    ∧ (∀ q : CombatRecord, s.combats addrC = some q → q.owner ≠ caller →
        exec s (Op.attack addrC caller damage) = (s, some Err.Unauthorized)) := by
  constructor
  · intro p hP hpo
    simp [exec, step, update_level, hP, hpo]
  · intro q hC hqo
    simp [exec, step, attack, hC, hqo]

/-- Witness for C3 at `wState`: caller 8 is not owner 7; each half is
discharged on its own record at address 0. -/
theorem non_owner_mutation_fails_unauthorized_witness :
    exec wState (Op.updateLevel 0 8 60) = (wState, some Err.Unauthorized)
    ∧ exec wState (Op.attack 0 8 4) = (wState, some Err.Unauthorized) :=
  ⟨(non_owner_mutation_fails_unauthorized wState 0 0 8 60 4).1
      { owner := 7, name := "Hero", level := 3 } rfl (by decide),
   (non_owner_mutation_fails_unauthorized wState 0 0 8 60 4).2
      { owner := 7, hp := 10 } rfl (by decide)⟩

/-- Claim C6: `register_player` is not idempotent: after a successful
call at an address, a second call there fails `AlreadyExists` and
commits nothing, and the first record — owner, name and level — is
still stored untouched. -/
theorem register_player_second_call_fails (s s₁ : SystemState) (addr : Addr)
    (a b : Identity) (n m : String)
    (h : step s (Op.registerPlayer addr a n) = Except.ok s₁) :
    exec s₁ (Op.registerPlayer addr b m) = (s₁, some Err.AlreadyExists)
    ∧ s₁.profiles addr = some { owner := a, name := n, level := 1 } := by
  obtain ⟨-, rfl⟩ := register_player_ok_inv s s₁ addr a n h
  refine ⟨?_, by simp⟩
  simp [exec, step, register_player]

/-- Witness for C6: registering address 1 twice on `wState`. -/
theorem register_player_second_call_fails_witness :
    exec wAfterReg (Op.registerPlayer 1 11 "Thief") = (wAfterReg, some Err.AlreadyExists)
    ∧ wAfterReg.profiles 1 = some { owner := 9, name := "Mage", level := 1 } :=
  register_player_second_call_fails wState wAfterReg 1 9 11 "Mage" "Thief" rfl

/-- Claim C7: every successful `mint_item` increases the destination
balance by exactly 1 — the quantity is fixed at 1 whatever the
arguments — and two successful calls increase it by exactly 2. -/
theorem mint_item_increments_balance_by_one (s s₁ s₂ : SystemState)
    (m₁ m₂ : MintAddr) (dest : TokenAcctAddr) (a₁ a₂ : Identity) (b₁ b₂ : Nat)
    (h1 : step s (Op.mintItem m₁ dest a₁ b₁) = Except.ok s₁)
    (h2 : step s₁ (Op.mintItem m₂ dest a₂ b₂) = Except.ok s₂) :
    s₁.ledger.balance dest = s.ledger.balance dest + 1
    ∧ s₂.ledger.balance dest = s.ledger.balance dest + 2 := by
  obtain ⟨e1, -, -⟩ := mint_item_ok_inv s s₁ m₁ dest a₁ b₁ h1
  obtain ⟨e2, -, -⟩ := mint_item_ok_inv s₁ s₂ m₂ dest a₂ b₂ h2
  exact ⟨e1, by omega⟩

/-- Witness for C7: two mints to destination 0 on `wState` raise its
balance from 0 to 1 to 2. -/
theorem mint_item_increments_balance_by_one_witness :
    wAfterMint1.ledger.balance 0 = wState.ledger.balance 0 + 1
    ∧ wAfterMint2.ledger.balance 0 = wState.ledger.balance 0 + 2 :=
  mint_item_increments_balance_by_one wState wAfterMint1 wAfterMint2
    0 0 0 5 5 0 0 rfl rfl

/-- Claim C8: the no-op entry point (`mint_nft::initialize`) succeeds
unconditionally and changes nothing: the post-state is exactly the
pre-state, so every record and every balance is unchanged. -/
theorem init_stub_no_side_effect (s : SystemState) (payer : Identity) :
    exec s (Op.initStub payer) = (s, none) := rfl

end SolanaMcp
